import Mathlib

/-!
Shallow embedding of the session checkpoint/restore and subprocess
orchestration core of the agent-for-gitlab repository
(src/agent-image/scripts/src/runner.js and
src/agent-image/scripts/src/session.js), together with theorems settling
the frozen claims about it.

JavaScript strings are modelled as Lean `String`s; the handful of
JavaScript string primitives the source uses (split on a single-character
separator, trim, startsWith, includes, join) are embedded as structurally
recursive functions over the underlying character list so that every
definition is executable by the kernel.
-/

deriving instance DecidableEq for Except

namespace AgentForGitlab

/-! ## JavaScript string primitives -/

/-- Whitespace characters removed by JavaScript String.prototype.trim
(the ones that can occur in the line-based data of this system). -/
def jsWhitespaceChar (c : Char) : Bool :=
  c = ' ' || c = '\t' || c = '\n' || c = '\r'

/-- Trim whitespace from both ends of a character list. -/
def trimChars (l : List Char) : List Char :=
  ((l.dropWhile jsWhitespaceChar).reverse.dropWhile jsWhitespaceChar).reverse

/-- JavaScript String.prototype.trim. -/
def jsTrim (s : String) : String :=
  ⟨trimChars s.data⟩

/-- Auxiliary accumulator-based splitter for a single-character separator. -/
def splitOnCharAux (sep : Char) : List Char → List Char → List (List Char)
  | [], acc => [acc.reverse]
  | c :: cs, acc =>
    if c = sep then acc.reverse :: splitOnCharAux sep cs []
    else splitOnCharAux sep cs (c :: acc)

/-- JavaScript String.prototype.split with a single-character separator:
"a/b".split('/') = ["a","b"], "".split('/') = [""], "a//b".split('/') =
["a","","b"]. -/
def jsSplit (sep : Char) (s : String) : List String :=
  (splitOnCharAux sep s.data []).map fun l => ⟨l⟩

/-- Does the character list `s` start with the character list `p`? -/
def listStartsWith : List Char → List Char → Bool
  | _, [] => true
  | [], _ :: _ => false
  | c :: cs, p :: ps => c = p && listStartsWith cs ps

/-- Does the character list `s` contain `p` as a contiguous sublist?
Models JavaScript String.prototype.includes for a nonempty pattern. -/
def listIncludes : List Char → List Char → Bool
  | [], pat => listStartsWith [] pat
  | c :: cs, pat => listStartsWith (c :: cs) pat || listIncludes cs pat

/-- JavaScript s.includes(pat). -/
def jsIncludes (s pat : String) : Bool :=
  listIncludes s.data pat.data

/-- JavaScript s.startsWith(pat). -/
def jsStartsWith (s pat : String) : Bool :=
  listStartsWith s.data pat.data

/-- JavaScript truthiness of a string: nonempty. -/
def strTruthy (s : String) : Bool :=
  !s.data.isEmpty

/-- JavaScript Array.prototype.join with separator `sep`. -/
def jsJoin (sep : String) : List String → String
  | [] => ""
  | [x] => x
  | x :: y :: xs => x ++ sep ++ jsJoin sep (y :: xs)

/-! ## ProcessRunner: runOpencode (src/agent-image/scripts/src/runner.js) -/

/-- One qualifying line of the output-extraction loop: nonempty after
trimming, does not start with a bracket, and contains neither the
tool marker nor the progress marker. Source:
`if (line && !line.startsWith('[') && !line.includes('Tool:') && !line.includes('>>>'))`
where `line = lines[i].trim()`. -/
def qualifiesLine (line : String) : Bool :=
  let t := jsTrim line
  strTruthy t && !jsStartsWith t "[" && !jsIncludes t "Tool:" && !jsIncludes t ">>>"

/-- The backward-scanning collection loop of runOpencode, acting on the
reversed line list: collect up to `fuel` qualifying original lines,
stopping as soon as `fuel` many have been collected. Source:
`for (let i = lines.length - 1; i >= 0 && lastNonEmptyLines.length < 50; i--)`. -/
def collectBack : Nat → List String → List String
  | _, [] => []
  | 0, _ :: _ => []
  | fuel + 1, l :: rest =>
    if qualifiesLine l then l :: collectBack fuel rest
    else collectBack (fuel + 1) rest

/-- Result extraction of runOpencode: split on newlines, collect the last
at-most-50 qualifying lines in original order, join and trim; if none
qualify, fall back to the whole output. -/
def extractFinalResponse (fullOutput : String) : String :=
  let lines := jsSplit '\n' fullOutput
  let lastNonEmptyLines := (collectBack 50 lines.reverse).reverse
  if lastNonEmptyLines.length > 0 then jsTrim (jsJoin "\n" lastNonEmptyLines)
  else fullOutput

/-! ## Run context (the fields of the context object the embedded code reads) -/

/-- The run context built by the external context builder; only the fields
the embedded core reads are modelled. -/
structure Context where
  projectId : String
  branch : String
  prompt : String
  agentPrompt : String
  opencodeModel : String
deriving DecidableEq, Repr

/-- Result of spawnSync for the opencode child process: exit status
(`none` models a null status when the spawn itself failed), captured
standard output and captured standard error. -/
structure SpawnResult where
  status : Option Int
  stdout : String
  stderr : String
deriving DecidableEq, Repr

/-- Successful return value of runOpencode. -/
structure OcResult where
  fullOutput : String
  finalResponse : String
  stderr : String
deriving DecidableEq, Repr

/-- The model-specifier validation of runOpencode: destructuring
`const [providerID, modelID] = context.opencodeModel.split('/')`
followed by `if (!providerID || !modelID) throw ...`; a component is
falsy when it is the empty string or absent. -/
def modelSpecValid (m : String) : Bool :=
  let parts := jsSplit '/' m
  strTruthy (parts.getD 0 "") && strTruthy (parts.getD 1 "")

/-- The error message thrown for a malformed model specifier. -/
def invalidModelMsg (m : String) : String :=
  "Invalid OPENCODE_MODEL format: " ++ m ++ ". Expected format: provider/model"

/-- runOpencode: validate the model specifier (throwing before any
subprocess is spawned on violation), run the child synchronously, throw
with the captured stderr if the exit status is not zero, otherwise return
the full output, the heuristically extracted final response, and stderr.
The spawnSync outcome is supplied as an oracle argument. -/
def runOpencode (ctx : Context) (spawn : SpawnResult) : Except String OcResult :=
  if !modelSpecValid ctx.opencodeModel then
    .error (invalidModelMsg ctx.opencodeModel)
  else if spawn.status ≠ some 0 then
    .error ("opencode CLI failed: " ++ spawn.stderr)
  else
    let fullOutput := spawn.stdout
    .ok { fullOutput := fullOutput
          finalResponse := extractFinalResponse fullOutput
          stderr := spawn.stderr }

/-! ## Cost aggregation (the jq pipeline of run over the latest session records) -/

/-- The JSON values relevant to the cost pipeline: a number (idealised as a
rational), null (also the value of a missing .cost field), or a string
(a non-numeric cost). -/
inductive JVal where
  | num (q : ℚ)
  | null
  | str (s : String)
deriving DecidableEq, Repr

/-- jq addition: null is absorbed on either side, numbers add, strings
concatenate, and a number/string mix is a jq error (which makes the whole
jq invocation exit non-zero). -/
def jqPlus : JVal → JVal → Except Unit JVal
  | .null, x => .ok x
  | x, .null => .ok x
  | .num a, .num b => .ok (.num (a + b))
  | .str a, .str b => .ok (.str (a ++ b))
  | .num _, .str _ => .error ()
  | .str _, .num _ => .error ()

/-- jq `add` is `reduce .[] as $x (null; . + $x)`: fold jqPlus from null,
propagating the first error. -/
def jqAddAux (acc : JVal) : List JVal → Except Unit JVal
  | [] => .ok acc
  | x :: rest =>
    match jqPlus acc x with
    | .error e => .error e
    | .ok y => jqAddAux y rest

/-- jq filter `map(.cost) | add` applied to the cost values of the
records of the latest conversation unit. -/
def jqAdd (costs : List JVal) : Except Unit JVal :=
  jqAddAux .null costs

/-- The cost step of run: `parseFloat(execSync(costCmd).trim()) || 0` inside a
try/catch. A jq error makes execSync throw, which the catch absorbs
leaving the initial 0; a null result prints "null" whose parseFloat is
NaN, giving 0; a string result prints with a leading quote, also giving
0; a numeric result parses back to itself. -/
def totalCostOf (costs : List JVal) : ℚ :=
  match jqAdd costs with
  | .error _ => 0
  | .ok (.num q) => q
  | .ok .null => 0
  | .ok (.str _) => 0

/-- Reference sum for the amended cost claim: each numeric cost counts,
null counts as zero. -/
def sumCosts (costs : List JVal) : ℚ :=
  (costs.map fun v => match v with | .num q => q | _ => 0).sum

/-- A cost value that jq add absorbs without error: a number or null. -/
def isNumOrNull : JVal → Bool
  | .num _ => true
  | .null => true
  | .str _ => false

/-! ## SessionStore (src/agent-image/scripts/src/session.js) -/

/-- Session identifier: the template literal
`${context.projectId}_${context.branch}`. -/
def getSessionId (ctx : Context) : String :=
  ctx.projectId ++ "_" ++ ctx.branch

/-- The fixed scratch archive path. -/
def SESSION_ZIP_PATH : String := "/tmp/opencode-session.zip"

/-- An archive blob: whether unzip succeeds on it, the conversation-unit
entries (name, mtime) it deposits under storage/message (none when the
archive carries no storage/message directory), and any other paths it
deposits. -/
structure Archive where
  wellFormed : Bool
  messageDir : Option (List (String × Nat))
  otherFiles : List String
deriving DecidableEq, Repr

/-- Contents of the opencode state directory: the storage/message
subdirectory with its conversation-unit entries (name, mtime), if
present, plus any other files. -/
structure DirState where
  messageDir : Option (List (String × Nat))
  otherFiles : List String
deriving DecidableEq, Repr

/-- The filesystem state the session functions touch: the existing archive
files by path, and the opencode state directory (none when it does not
exist). -/
structure FS where
  archives : List (String × Archive)
  opencodeDir : Option DirState
deriving DecidableEq, Repr

/-- existsSync plus read for an archive path. -/
def lookupArchive (fs : FS) (p : String) : Option Archive :=
  (fs.archives.find? fun e => e.1 = p).map fun e => e.2

/-- The directory mkdirSync creates. -/
def emptyDir : DirState :=
  { messageDir := none, otherFiles := [] }

/-- writeFileSync of the downloaded bytes to an archive path
(overwriting any previous file there). -/
def writeZip (fs : FS) (p : String) (ar : Archive) : FS :=
  { fs with archives := (p, ar) :: fs.archives.filter fun e => e.1 ≠ p }

/-- Entry with the greatest modification time (`ls -td ... | head -n 1`);
ties keep the earlier entry of the listing. -/
def maxByMtime : List (String × Nat) → Option (String × Nat)
  | [] => none
  | e :: rest =>
    match maxByMtime rest with
    | none => some e
    | some m => some (if m.2 > e.2 then m else e)

/-- getLatestSessionId: if the storage/message directory exists, list the
entries matching the ses_ naming scheme most recent first and take the
first basename; otherwise null. An empty match list gives null. -/
def getLatestSessionId (fs : FS) : Option String :=
  match fs.opencodeDir with
  | none => none
  | some d =>
    match d.messageDir with
    | none => none
    | some entries =>
      match maxByMtime (entries.filter fun e => jsStartsWith e.1 "ses_") with
      | none => none
      | some e => some e.1

/-- unzip -o extraction effect: entries with the same relative path are
overwritten, everything else is merged. -/
def extractInto (ar : Archive) (d : DirState) : DirState :=
  { messageDir :=
      match d.messageDir, ar.messageDir with
      | none, none => none
      | some old, none => some old
      | none, some fresh => some fresh
      | some old, some fresh =>
        some ((old.filter fun e => !(fresh.any fun n => n.1 = e.1)) ++ fresh)
    otherFiles :=
      (d.otherFiles.filter fun p => !(ar.otherFiles.contains p)) ++ ar.otherFiles }

/-- unzipSession: if zipPath does not exist, warn and return null leaving
the filesystem untouched; otherwise create the opencode directory if
absent, run unzip (a failure is caught and yields null), and on success
report the most recent conversation-unit identifier. -/
def unzipSession (fs : FS) (zipPath : String) : Option String × FS :=
  match lookupArchive fs zipPath with
  | none => (none, fs)
  | some ar =>
    let d0 := fs.opencodeDir.getD emptyDir
    let fs1 : FS := { fs with opencodeDir := some d0 }
    if !ar.wellFormed then (none, fs1)
    else
      let fs2 : FS := { fs1 with opencodeDir := some (extractInto ar d0) }
      (getLatestSessionId fs2, fs2)

/-- Outcome of the fetch in downloadSession: a network error (the catch
branch) or a response with a status code and, for successful responses,
the archive bytes of the body. -/
inductive FetchOut where
  | netError
  | resp (status : Nat) (body : Archive)
deriving DecidableEq, Repr

/-- What a caller of downloadSession can observe: a restored conversation
identifier, the boolean false (no prior session or transport failure), or
null (propagated from unzipSession). -/
inductive DlResult where
  | conversationId (s : String)
  | noSession
  | nullResult
deriving DecidableEq, Repr

/-- response.ok of the Fetch API: status in [200, 300). -/
def respOk (status : Nat) : Bool :=
  200 ≤ status && status < 300

/-- downloadSession: 404 means no prior session (false); any other
non-2xx status or a network error also yields false; on success the body
is written to the scratch archive path and the function returns exactly
what unzipSession returns (a conversation id, or null). -/
def downloadSession (fetchOut : FetchOut) (fs : FS) : DlResult × FS :=
  match fetchOut with
  | .netError => (.noSession, fs)
  | .resp status body =>
    if status = 404 then (.noSession, fs)
    else if !respOk status then (.noSession, fs)
    else
      let fs1 := writeZip fs SESSION_ZIP_PATH body
      match unzipSession fs1 SESSION_ZIP_PATH with
      | (none, fs2) => (.nullResult, fs2)
      | (some s, fs2) => (.conversationId s, fs2)

/-! ## Orchestrator (run in src/agent-image/scripts/src/runner.js) -/

/-- The externally observable events of one run, in order: the warning
logged when no provider key is present, a SessionStore download or upload
(constructors present so their absence from every run trace is a
statement about the code), the telemetry POST, the posted failure
comment, the success or failure output record, and the process exit. -/
inductive Event where
  | providerKeyWarn
  | sessionDownload
  | sessionUpload
  | telemetryPost
  | commentPost (msg : String)
  | outputSuccess (cost : ℚ) (aiTime : Nat)
  | outputFailure (msg : String)
  | exitCode (n : Nat)
deriving DecidableEq, Repr

/-- Oracle outcomes of the external collaborators of run.

Modelled from the spec where the collaborator code is not under
src/ (config.js and git.js): validateConfig validates required settings
and throws on missing ones (`validateConfigError`), gitSetup and the
branch step may throw (`gitSetupError`, `setupRepoError`,
`ensureBranchError`), and validateProviderKeys reports whether any
provider API key is present (`hasAnyProviderKey`) — runner.js itself
shows that a falsy report is only logged. The remaining fields are the
spawnSync outcome, the cost records of the latest conversation unit
(none when the session lookup command fails), and the measured elapsed
seconds. -/
structure RunWorld where
  validateConfigError : Option String
  gitSetupError : Option String
  insideGitRepo : Bool
  setupRepoError : Option String
  ensureBranchError : Option String
  hasAnyProviderKey : Bool
  spawn : SpawnResult
  costRecords : Option (List JVal)
  aiTimeSeconds : Nat
deriving DecidableEq, Repr

/-- handleError: post a failure comment, write the failure output record
carrying the error message, exit 1. -/
def handleErrorTrace (msg : String) : List Event :=
  [Event.commentPost msg, Event.outputFailure msg, Event.exitCode 1]

/-- The warning logged when validateProviderKeys reports no provider API
key: the run continues either way. -/
def providerKeyWarnEvents (w : RunWorld) : List Event :=
  if w.hasAnyProviderKey then [] else [Event.providerKeyWarn]

/-- The cost step of run, wrapped in try/catch: a failed session lookup leaves
the initial 0, otherwise the jq pipeline total is used. -/
def runTotalCost (w : RunWorld) : ℚ :=
  match w.costRecords with
  | none => 0
  | some costs => totalCostOf costs

/-- The orchestrator run: validate config, set up git and the branch
(setupLocalRepository when not inside a git repository, ensureBranch
otherwise), warn if no provider key is present, invoke runOpencode, and
on success compute the cost (a failed lookup is caught leaving 0), POST
telemetry, write the success record and exit 0; any thrown error is
handled by handleError. The trace of externally observable events is
returned. -/
def run (ctx : Context) (w : RunWorld) : List Event :=
  match w.validateConfigError with
  | some e => handleErrorTrace e
  | none =>
    match w.gitSetupError with
    | some e => handleErrorTrace e
    | none =>
      match (if w.insideGitRepo then w.ensureBranchError else w.setupRepoError) with
      | some e => handleErrorTrace e
      | none =>
        match runOpencode ctx w.spawn with
        | .error e => providerKeyWarnEvents w ++ handleErrorTrace e
        | .ok _ =>
          providerKeyWarnEvents w ++
            [Event.telemetryPost,
             Event.outputSuccess (runTotalCost w) w.aiTimeSeconds,
             Event.exitCode 0]

/-! ## Concrete fixtures used by witnesses and counterexamples -/

/-- A context with a well-formed model specifier. -/
def okCtx : Context :=
  { projectId := "42", branch := "main", prompt := "p",
    agentPrompt := "sys", opencodeModel := "openai/gpt" }

/-- A zero-exit spawn outcome. -/
def okSpawn : SpawnResult :=
  { status := some 0, stdout := "done", stderr := "" }

/-- A failing spawn outcome with captured stderr. -/
def errSpawn : SpawnResult :=
  { status := some 1, stdout := "", stderr := "boom" }

/-- A world in which every collaborator succeeds. -/
def okWorld : RunWorld :=
  { validateConfigError := none, gitSetupError := none, insideGitRepo := true,
    setupRepoError := none, ensureBranchError := none, hasAnyProviderKey := true,
    spawn := okSpawn, costRecords := none, aiTimeSeconds := 7 }

/-- The all-success world with no provider API key in the environment. -/
def noKeyWorld : RunWorld :=
  { okWorld with hasAnyProviderKey := false }

/-- A world in which configuration validation throws. -/
def badConfigWorld : RunWorld :=
  { okWorld with validateConfigError := some "GITLAB_TOKEN is required" }

/-- A context whose model specifier has no separator. -/
def badModelCtx : Context :=
  { okCtx with opencodeModel := "nomodel" }

/-- A context whose model specifier splits into three nonempty components. -/
def threePartCtx : Context :=
  { okCtx with opencodeModel := "a/b/c" }

/-- Colliding contexts: projectId "1" with branch "2_x". -/
def collCtxA : Context :=
  { okCtx with projectId := "1", branch := "2_x" }

/-- Colliding contexts: projectId "1_2" with branch "x". -/
def collCtxB : Context :=
  { okCtx with projectId := "1_2", branch := "x" }

/-- An archive that extracts cleanly and contains one conversation unit. -/
def goodArchive : Archive :=
  { wellFormed := true, messageDir := some [("ses_new", 5)], otherFiles := [] }

/-- An archive on which unzip fails. -/
def corruptArchive : Archive :=
  { wellFormed := false, messageDir := none, otherFiles := [] }

/-- An archive that extracts cleanly but contains no conversation units. -/
def emptyArchive : Archive :=
  { wellFormed := true, messageDir := none, otherFiles := [] }

/-- An empty filesystem. -/
def fs0 : FS :=
  { archives := [], opencodeDir := none }

/-- A filesystem with an existing state directory and no archive file. -/
def c6fs : FS :=
  { archives := [],
    opencodeDir := some { messageDir := some [("ses_old", 3)], otherFiles := ["auth.json"] } }

/-! ## Helper lemmas -/

/-- The backward-scanning loop collects exactly the first `n` qualifying
lines of the scanned (reversed) list. -/
theorem collectBack_eq_take_filter (n : Nat) (l : List String) :
    collectBack n l = (l.filter qualifiesLine).take n := by
  induction l generalizing n with
  | nil => cases n <;> rfl
  | cons x xs ih =>
    cases n with
    | zero => simp [collectBack]
    | succ k =>
      by_cases hq : qualifiesLine x
      · simp [collectBack, hq, List.filter_cons, ih]
      · simp [collectBack, hq, List.filter_cons, ih]

/-- The character data of an appended string is the appended data. -/
theorem string_data_append (s t : String) : (s ++ t).data = s.data ++ t.data := by
  cases s; cases t; rfl

/-- Appending on the left of a string is injective. -/
theorem string_append_left_cancel {s t u : String} (h : s ++ t = s ++ u) : t = u := by
  apply String.ext
  have hd := String.data_eq_of_eq h
  rw [string_data_append, string_data_append] at hd
  exact List.append_cancel_left hd

/-- JavaScript string truthiness is being nonempty. -/
theorem strTruthy_iff (s : String) : strTruthy s = true ↔ s ≠ "" := by
  constructor
  · intro h heq
    subst heq
    simp [strTruthy] at h
  · intro h
    cases s with | mk d =>
    cases d with
    | nil => exact absurd rfl h
    | cons c tl => simp [strTruthy]

/-- jq add over number-or-null values, starting from a numeric
accumulator, returns the accumulator plus the numeric sum. -/
theorem jqAddAux_num (l : List JVal) :
    (∀ v ∈ l, isNumOrNull v = true) → ∀ q : ℚ,
      jqAddAux (.num q) l = .ok (.num (q + sumCosts l)) := by
  induction l with
  | nil => intro _ q; simp [jqAddAux, sumCosts]
  | cons v rest ih =>
    intro hl q
    have hrest : ∀ x ∈ rest, isNumOrNull x = true :=
      fun x hx => hl x (List.mem_cons_of_mem _ hx)
    have hv : isNumOrNull v = true := hl v (List.mem_cons_self _ _)
    cases v with
    | num r => simp [jqAddAux, jqPlus, ih hrest, sumCosts, add_assoc]
    | null => simp [jqAddAux, jqPlus, ih hrest, sumCosts]
    | str s => simp [isNumOrNull] at hv

/-- Over records whose cost values are all numbers or nulls, the cost
pipeline computes the numeric sum with nulls contributing zero. -/
theorem totalCostOf_eq_sumCosts (l : List JVal) :
    (∀ v ∈ l, isNumOrNull v = true) → totalCostOf l = sumCosts l := by
  induction l with
  | nil => intro _; simp [totalCostOf, jqAdd, jqAddAux, sumCosts]
  | cons v rest ih =>
    intro hl
    have hrest : ∀ x ∈ rest, isNumOrNull x = true :=
      fun x hx => hl x (List.mem_cons_of_mem _ hx)
    have hv : isNumOrNull v = true := hl v (List.mem_cons_self _ _)
    cases v with
    | num r =>
      simp [totalCostOf, jqAdd, jqAddAux, jqPlus, jqAddAux_num rest hrest r, sumCosts]
    | null =>
      have := ih hrest
      simp [totalCostOf, jqAdd, jqAddAux, jqPlus, sumCosts] at this ⊢
      exact this
    | str s => simp [isNumOrNull] at hv

/-- No execution of run ever produces a SessionStore download or upload
event. -/
theorem run_no_session_events (ctx : Context) (w : RunWorld) :
    Event.sessionDownload ∉ run ctx w ∧ Event.sessionUpload ∉ run ctx w := by
  unfold run
  cases w.validateConfigError with
  | some e => simp [handleErrorTrace]
  | none =>
    cases w.gitSetupError with
    | some e => simp [handleErrorTrace]
    | none =>
      cases (if w.insideGitRepo then w.ensureBranchError else w.setupRepoError) with
      | some e => simp [handleErrorTrace]
      | none =>
        cases runOpencode ctx w.spawn with
        | error e => simp [handleErrorTrace, providerKeyWarnEvents]
        | ok r => simp [providerKeyWarnEvents]

/-- When every step up to the invocation succeeds, the run trace is the
provider-key warning (if any) followed by the telemetry POST, the
success record and exit 0. -/
theorem run_success_trace (ctx : Context) (w : RunWorld)
    (h1 : w.validateConfigError = none) (h2 : w.gitSetupError = none)
    (h3 : (if w.insideGitRepo then w.ensureBranchError else w.setupRepoError) = none)
    (r : OcResult) (hr : runOpencode ctx w.spawn = .ok r) :
    run ctx w = providerKeyWarnEvents w ++
      [Event.telemetryPost,
       Event.outputSuccess (runTotalCost w) w.aiTimeSeconds,
       Event.exitCode 0] := by
  unfold run
  rw [h1, h2, h3, hr]

/-! ## Claim theorems -/

/-- Claim C5: for every subprocess invocation whose exit status is
non-zero, invoke fails and the failure detail is the captured
standard-error content appended to the descriptive message; for exit
status zero it does not fail and returns the captured output. -/
theorem C5_exit_status (ctx : Context) (spawn1 : SpawnResult) (n : Int)
    (hm : modelSpecValid ctx.opencodeModel = true) (hs : spawn1.status = some n) :
    (n ≠ 0 → runOpencode ctx spawn1 = .error ("opencode CLI failed: " ++ spawn1.stderr)) ∧
    (n = 0 → runOpencode ctx spawn1 =
      .ok { fullOutput := spawn1.stdout,
            finalResponse := extractFinalResponse spawn1.stdout,
            stderr := spawn1.stderr }) := by
  constructor
  · intro hn
    simp [runOpencode, hm, hs, hn]
  · intro hn
    subst hn
    simp [runOpencode, hm, hs]

/-- Witness for C5 at a failing and at a succeeding concrete spawn. -/
theorem C5_exit_status_witness :
    runOpencode okCtx errSpawn = .error "opencode CLI failed: boom" ∧
    runOpencode okCtx okSpawn =
      .ok { fullOutput := "done", finalResponse := "done", stderr := "" } := by
  constructor
  · have h := (C5_exit_status okCtx errSpawn 1 (by decide) (by decide)).1 (by decide)
    have hmsg : ("opencode CLI failed: " ++ errSpawn.stderr) = "opencode CLI failed: boom" := by decide
    rw [hmsg] at h
    exact h
  · have h := (C5_exit_status okCtx okSpawn 0 (by decide) (by decide)).2 rfl
    have hfr : extractFinalResponse okSpawn.stdout = "done" := by decide
    rw [hfr] at h
    exact h

/-- Claim C6: restoring from a nonexistent archive path returns null and
leaves the filesystem, in particular the state directory, untouched. -/
theorem C6_unzip_missing_archive (fs : FS) (zipPath : String)
    (h : lookupArchive fs zipPath = none) :
    unzipSession fs zipPath = (none, fs) := by
  unfold unzipSession
  rw [h]

/-- Witness for C6: a filesystem with an existing populated state
directory and no archive at the scratch path is returned unchanged. -/
theorem C6_unzip_missing_archive_witness :
    lookupArchive c6fs SESSION_ZIP_PATH = none ∧
    unzipSession c6fs SESSION_ZIP_PATH = (none, c6fs) :=
  ⟨by decide, C6_unzip_missing_archive c6fs SESSION_ZIP_PATH (by decide)⟩

/-- Claim C7: getSessionId is deterministic, and for a fixed projectId
two distinct branch names yield distinct identifiers. -/
theorem C7_sessionId_deterministic_injective :
    (∀ c1 c2 : Context, c1.projectId = c2.projectId → c1.branch = c2.branch →
      getSessionId c1 = getSessionId c2) ∧
    (∀ c1 c2 : Context, c1.projectId = c2.projectId → c1.branch ≠ c2.branch →
      getSessionId c1 ≠ getSessionId c2) := by
  constructor
  · intro c1 c2 hp hb
    unfold getSessionId
    rw [hp, hb]
  · intro c1 c2 hp hb hid
    apply hb
    unfold getSessionId at hid
    rw [hp] at hid
    exact string_append_left_cancel hid

/-- Witness for C7 at concrete contexts. -/
theorem C7_sessionId_witness :
    getSessionId { okCtx with projectId := "7", branch := "dev" } =
      getSessionId { badModelCtx with projectId := "7", branch := "dev" } ∧
    getSessionId { okCtx with projectId := "7", branch := "dev" } ≠
      getSessionId { okCtx with projectId := "7", branch := "prod" } :=
  ⟨C7_sessionId_deterministic_injective.1 _ _ rfl rfl,
   C7_sessionId_deterministic_injective.2 _ _ rfl (by decide)⟩

/-- Claim C9: getSessionId is not injective across projects: projectId
"1" with branch "2_x" and projectId "1_2" with branch "x" are distinct
pairs producing the same identifier, the underscore-joined concatenation
"1_2_x". -/
theorem C9_sessionId_cross_project_collision :
    getSessionId collCtxA = getSessionId collCtxB ∧
    (collCtxA.projectId, collCtxA.branch) ≠ (collCtxB.projectId, collCtxB.branch) ∧
    getSessionId collCtxA = "1_2_x" := by
  decide

/-- Counterexample to claim C1: a successful concrete run whose trace
contains no SessionStore download (which the claim requires before the
invocation) and no SessionStore upload (which the claim requires before
the metrics report). -/
theorem C1_run_counterexample :
    run okCtx okWorld =
      [Event.telemetryPost, Event.outputSuccess 0 7, Event.exitCode 0] ∧
    Event.sessionDownload ∉ run okCtx okWorld ∧
    Event.sessionUpload ∉ run okCtx okWorld := by
  decide

/-- Claim C1 as amended: run never interacts with the SessionStore (no
download before the invocation, no upload after it), and on a successful
invocation proceeds directly to the telemetry report, the success output
record and exit 0. -/
theorem C1_run_amended (ctx : Context) (w : RunWorld) :
    Event.sessionDownload ∉ run ctx w ∧
    Event.sessionUpload ∉ run ctx w ∧
    (w.validateConfigError = none → w.gitSetupError = none →
      (if w.insideGitRepo then w.ensureBranchError else w.setupRepoError) = none →
      w.hasAnyProviderKey = true →
      ∀ r, runOpencode ctx w.spawn = .ok r →
      run ctx w = [Event.telemetryPost,
        Event.outputSuccess (runTotalCost w) w.aiTimeSeconds,
        Event.exitCode 0]) := by
  refine ⟨(run_no_session_events ctx w).1, (run_no_session_events ctx w).2, ?_⟩
  intro h1 h2 h3 h4 r hr
  have h := run_success_trace ctx w h1 h2 h3 r hr
  simpa [providerKeyWarnEvents, h4] using h

/-- Witness for the amended C1 at the all-success world. -/
theorem C1_run_amended_witness :
    Event.sessionDownload ∉ run okCtx okWorld ∧
    Event.sessionUpload ∉ run okCtx okWorld ∧
    run okCtx okWorld = [Event.telemetryPost,
      Event.outputSuccess (runTotalCost okWorld) okWorld.aiTimeSeconds,
      Event.exitCode 0] := by
  have h := C1_run_amended okCtx okWorld
  exact ⟨h.1, h.2.1,
    h.2.2 rfl rfl rfl rfl { fullOutput := "done", finalResponse := "done", stderr := "" }
      (by decide)⟩

/-- Counterexample to claim C2: a run whose configuration has no provider
API key but is otherwise valid logs a warning, POSTs telemetry, writes
the success record and exits 0 — it does not terminate with failure. -/
theorem C2_provider_key_counterexample :
    noKeyWorld.hasAnyProviderKey = false ∧
    run okCtx noKeyWorld =
      [Event.providerKeyWarn, Event.telemetryPost,
       Event.outputSuccess 0 7, Event.exitCode 0] ∧
    Event.exitCode 1 ∉ run okCtx noKeyWorld ∧
    Event.telemetryPost ∈ run okCtx noKeyWorld := by
  decide

/-- Claim C2 as amended: a missing provider key alone only produces a
warning and the run continues to success; it is a configuration
validation failure that terminates with exit 1, writes an output record
carrying the error, and attempts no telemetry POST and no session
upload. -/
theorem C2_provider_key_amended :
    (∀ (ctx : Context) (w : RunWorld) (e : String), w.validateConfigError = some e →
      run ctx w = [Event.commentPost e, Event.outputFailure e, Event.exitCode 1] ∧
      Event.telemetryPost ∉ run ctx w ∧
      Event.sessionUpload ∉ run ctx w) ∧
    (∀ (ctx : Context) (w : RunWorld), w.hasAnyProviderKey = false →
      w.validateConfigError = none → w.gitSetupError = none →
      (if w.insideGitRepo then w.ensureBranchError else w.setupRepoError) = none →
      ∀ r, runOpencode ctx w.spawn = .ok r →
      run ctx w = [Event.providerKeyWarn, Event.telemetryPost,
        Event.outputSuccess (runTotalCost w) w.aiTimeSeconds,
        Event.exitCode 0]) := by
  constructor
  · intro ctx w e he
    have htr : run ctx w = handleErrorTrace e := by
      unfold run
      rw [he]
    refine ⟨by simpa [handleErrorTrace] using htr, ?_, (run_no_session_events ctx w).2⟩
    rw [htr]
    simp [handleErrorTrace]
  · intro ctx w hk h1 h2 h3 r hr
    have h := run_success_trace ctx w h1 h2 h3 r hr
    simpa [providerKeyWarnEvents, hk] using h

/-- Witness for the amended C2 at a failing-config world and at the
missing-provider-key world. -/
theorem C2_provider_key_amended_witness :
    run okCtx badConfigWorld =
      [Event.commentPost "GITLAB_TOKEN is required",
       Event.outputFailure "GITLAB_TOKEN is required", Event.exitCode 1] ∧
    run okCtx noKeyWorld =
      [Event.providerKeyWarn, Event.telemetryPost,
       Event.outputSuccess (runTotalCost noKeyWorld) noKeyWorld.aiTimeSeconds,
       Event.exitCode 0] :=
  ⟨(C2_provider_key_amended.1 okCtx badConfigWorld _ rfl).1,
   C2_provider_key_amended.2 okCtx noKeyWorld rfl rfl rfl rfl
     { fullOutput := "done", finalResponse := "done", stderr := "" } (by decide)⟩

/-- Counterexample to claim C3: the specifier "a/b/c" splits into three
components, not exactly two, yet validation passes and invoke succeeds
on a zero-exit spawn. -/
theorem C3_model_split_counterexample :
    (jsSplit '/' threePartCtx.opencodeModel).length = 3 ∧
    modelSpecValid threePartCtx.opencodeModel = true ∧
    runOpencode threePartCtx okSpawn =
      .ok { fullOutput := "done", finalResponse := "done", stderr := "" } := by
  decide

/-- Claim C3 as amended: invoke fails with the descriptive error, without
consulting the spawn outcome, exactly when the first or second component
of the '/'-split is empty or missing; whenever the first two components
are non-empty (including specifiers with more than two components)
validation passes and a zero-exit spawn yields a successful result. -/
theorem C3_model_split_amended (ctx : Context) (spawn1 : SpawnResult) :
    (modelSpecValid ctx.opencodeModel = false →
      runOpencode ctx spawn1 = .error (invalidModelMsg ctx.opencodeModel)) ∧
    ((jsSplit '/' ctx.opencodeModel).getD 0 "" ≠ "" →
      (jsSplit '/' ctx.opencodeModel).getD 1 "" ≠ "" →
      modelSpecValid ctx.opencodeModel = true) ∧
    (modelSpecValid ctx.opencodeModel = true → spawn1.status = some 0 →
      runOpencode ctx spawn1 =
        .ok { fullOutput := spawn1.stdout,
              finalResponse := extractFinalResponse spawn1.stdout,
              stderr := spawn1.stderr }) := by
  refine ⟨?_, ?_, ?_⟩
  · intro hm
    simp [runOpencode, hm]
  · intro h0 h1
    unfold modelSpecValid
    rw [Bool.and_eq_true, strTruthy_iff, strTruthy_iff]
    exact ⟨h0, h1⟩
  · intro hm hs
    simp [runOpencode, hm, hs]

/-- Witness for the amended C3: "nomodel" fails before the spawn,
"a/b/c" passes validation. -/
theorem C3_model_split_amended_witness :
    runOpencode badModelCtx errSpawn = .error (invalidModelMsg "nomodel") ∧
    modelSpecValid threePartCtx.opencodeModel = true :=
  ⟨(C3_model_split_amended badModelCtx errSpawn).1 (by decide),
   (C3_model_split_amended threePartCtx errSpawn).2.1 (by decide) (by decide)⟩

/-- Counterexample to claim C4: for the output " a\nb" the last
qualifying lines are exactly [" a", "b"], whose join in original order
is " a\nb", but finalResponse is the whitespace-trimmed "a\nb". -/
theorem C4_extract_counterexample :
    ((((jsSplit '\n' " a\nb").reverse.filter qualifiesLine).take 50).reverse = [" a", "b"]) ∧
    jsJoin "\n" [" a", "b"] = " a\nb" ∧
    extractFinalResponse " a\nb" = "a\nb" ∧
    ("a\nb" : String) ≠ " a\nb" := by
  decide

/-- Claim C4 as amended: finalResponse equals the whitespace-trimmed
join, in original order, of the last at-most-50 qualifying lines
(non-empty after trimming, not starting with a bracket, containing
neither the tool marker nor the progress marker), falling back to the
entire output when no line qualifies; on 60 plain lines followed by
bracketed log lines it is exactly the last 50 plain lines, with fewer
than 50 qualifying lines all of them are kept, and with zero qualifying
lines the entire output is returned. -/
theorem C4_extract_amended :
    (∀ s : String,
      extractFinalResponse s =
        if ((((jsSplit '\n' s).reverse.filter qualifiesLine).take 50).reverse).isEmpty then s
        else jsTrim (jsJoin "\n" ((((jsSplit '\n' s).reverse.filter qualifiesLine).take 50).reverse))) ∧
    extractFinalResponse
        (jsJoin "\n" (List.replicate 60 "x" ++ List.replicate 5 "[INFO] log")) =
      jsJoin "\n" (List.replicate 50 "x") ∧
    extractFinalResponse "a\n[log]\nb" = "a\nb" ∧
    extractFinalResponse "[x]\n[y]" = "[x]\n[y]" := by
  refine ⟨?_, by decide, by decide, by decide⟩
  intro s
  simp only [extractFinalResponse, collectBack_eq_take_filter]
  set L := (((jsSplit '\n' s).reverse.filter qualifiesLine).take 50).reverse with hLdef
  by_cases h : L = []
  · rw [h]
    simp
  · have hne : L.isEmpty = false := by
      cases hL2 : L with
      | nil => exact absurd hL2 h
      | cons a t => rfl
    rw [if_pos (List.length_pos.mpr h), hne]
    simp

/-- Counterexample to claim C8: with cost values {0.1, "x", 0.2} the
claim demands a total of 0.3 (the unparsable value contributing 0), but
the jq pipeline errors and the whole total collapses to 0. -/
theorem C8_cost_counterexample :
    totalCostOf [JVal.num (1/10), JVal.str "x", JVal.num (2/10)] = 0 ∧
    sumCosts [JVal.num (1/10), JVal.str "x", JVal.num (2/10)] = 3/10 ∧
    (0 : ℚ) ≠ 3/10 := by
  norm_num [totalCostOf, jqAdd, jqAddAux, jqPlus, sumCosts]

/-- Claim C8 as amended: over records whose cost values are all numeric
or null the pipeline sums them with null contributing 0 (never aborting
the run — the computation is total), and {0.1, null, 0.2} totals 0.3; a
non-numeric cost value instead collapses the entire total to 0. -/
theorem C8_cost_amended :
    (∀ costs : List JVal, (∀ v ∈ costs, isNumOrNull v = true) →
      totalCostOf costs = sumCosts costs) ∧
    totalCostOf [JVal.num (1/10), JVal.null, JVal.num (2/10)] = 3/10 ∧
    (∀ costs : List JVal, ∃ q : ℚ, totalCostOf costs = q) := by
  refine ⟨totalCostOf_eq_sumCosts, ?_, fun costs => ⟨totalCostOf costs, rfl⟩⟩
  norm_num [totalCostOf, jqAdd, jqAddAux, jqPlus]

/-- Witness for the amended C8 at a concrete number-and-null record
list. -/
theorem C8_cost_amended_witness :
    totalCostOf [JVal.num 1, JVal.null] = sumCosts [JVal.num 1, JVal.null] :=
  C8_cost_amended.1 [JVal.num 1, JVal.null] (by decide)

/-- Claim C10: on every successful (2xx) fetch, downloadSession returns
exactly what unzipSession returns on the freshly written scratch
archive, which can be null; a caller can observe three distinct
outcomes: a conversation id, false, and null (the latter both when
extraction fails and when the archive holds no conversation units). -/
theorem C10_download_passthrough :
    (∀ (st : Nat) (body : Archive) (fs : FS), respOk st = true →
      (downloadSession (.resp st body) fs).1 =
        (match (unzipSession (writeZip fs SESSION_ZIP_PATH body) SESSION_ZIP_PATH).1 with
         | none => DlResult.nullResult
         | some s => DlResult.conversationId s)) ∧
    (downloadSession (.resp 200 goodArchive) fs0).1 = .conversationId "ses_new" ∧
    (downloadSession (.resp 404 goodArchive) fs0).1 = .noSession ∧
    (downloadSession (.resp 200 corruptArchive) fs0).1 = .nullResult ∧
    (downloadSession (.resp 200 emptyArchive) fs0).1 = .nullResult ∧
    DlResult.conversationId "ses_new" ≠ .noSession ∧
    DlResult.conversationId "ses_new" ≠ .nullResult ∧
    DlResult.noSession ≠ .nullResult := by
  refine ⟨?_, by decide, by decide, by decide, by decide, by decide, by decide, by decide⟩
  intro st body fs hok
  have h404 : st ≠ 404 := by
    intro h
    subst h
    simp [respOk] at hok
  simp only [downloadSession]
  rw [if_neg h404]
  rw [if_neg (show ¬((!respOk st) = true) by simp [hok])]
  rcases hu : unzipSession (writeZip fs SESSION_ZIP_PATH body) SESSION_ZIP_PATH with ⟨r, fs2⟩
  cases r <;> rfl

/-- Witness for the C10 passthrough at a concrete successful fetch. -/
theorem C10_download_passthrough_witness :
    (downloadSession (.resp 200 emptyArchive) fs0).1 =
      (match (unzipSession (writeZip fs0 SESSION_ZIP_PATH emptyArchive) SESSION_ZIP_PATH).1 with
       | none => DlResult.nullResult
       | some s => DlResult.conversationId s) :=
  C10_download_passthrough.1 200 emptyArchive fs0 (by decide)

end AgentForGitlab
